import Mathlib

/-!
Verification development for the michadame capture/decode/render pipeline.

Source files embedded here:
- src/video/decoder.rs : the packet reader thread and the decoder loop
  (video_thread_main), including the format-tag normalization and the two
  single-slot crossbeam channels.
- src/video/gpu_filter.rs : the CrtFilterRenderer render graph (paint,
  draw_passthrough, setup_framebuffers) and its GLSL fragment shaders
  (FS_PASSTHROUGH, FS_FINAL), plus ShaderParams.
- src/app.rs : AppState and its Default instance.

Modelling conventions:
- Rust f32 literals are modelled as exact rationals; every float literal in
  the source is a short decimal that both sides of any compared expression
  write identically, so exact-rational equality coincides with f32 equality
  for the facts proved here.
- The two crossbeam bounded(1) channels are modelled as an Option-valued
  slot with the documented crossbeam semantics: try_send on a full channel
  returns TrySendError::Full and leaves the channel unchanged (the message
  is handed back to the caller, never inserted), try_recv on an empty
  channel returns TryRecvError::Empty. Both operations are non-blocking,
  which the model reflects by being total functions.
- GLSL shaders are modelled as functions over rationals; texture sampling
  is an abstract function argument, and the fixed linear-to-sRGB output
  encoding (ToSrgb) is represented by the FragColor.srgb constructor, a
  fixed injective wrapper around the linear color it encodes.
- GPU side effects in paint and draw_passthrough are modelled as an explicit
  trace of GL events (framebuffer allocation, draw calls, vertex-array
  binds) in source order.
-/

/-! ### Single-slot channel model (crossbeam_channel::bounded(1))

Both handoffs of the pipeline use a crossbeam bounded(1) channel:
the packet handoff created at src/video/decoder.rs line 56 and the frame
handoff created at src/app.rs line 253. A bounded(1) channel holds at most
one message, modelled as an Option. -/

/-- Slot state of a bounded(1) channel: none = empty, some v = occupied. -/
abbrev Slot (α : Type) : Type := Option α

/-- Model of crossbeam try_send on a bounded(1) channel: if the slot is
occupied the send fails (TrySendError::Full) and the slot is unchanged;
otherwise the value is stored. Returns the new slot and whether the send
succeeded. Non-blocking: a total function. -/
def trySend {α : Type} (v : α) (s : Slot α) : Slot α × Bool :=
  match s with
  | some w => (some w, false)
  | none => (some v, true)

/-- Model of crossbeam try_recv on a bounded(1) channel: returns the
received value (if any) and the emptied slot. -/
def tryRecv {α : Type} (s : Slot α) : Option α × Slot α :=
  match s with
  | some w => (some w, none)
  | none => (none, none)

/-- N successive non-blocking publishes with no intervening consume:
fold trySend over the list of published values. -/
def publishN {α : Type} (vs : List α) (s : Slot α) : Slot α :=
  vs.foldl (fun st v => (trySend v st).1) s

theorem publishN_occupied {α : Type} (vs : List α) (w : α) :
    publishN vs (some w) = some w := by
  induction vs with
  | nil => rfl
  | cons v rest ih => simpa [publishN, trySend] using ih

/-! ### Decoder drain loop (src/video/decoder.rs lines 71-95)

After submitting a packet, the decoder loop repeatedly calls
receive_frame; each received frame is converted to packed RGB by the
scaler (an external FFmpeg call, modelled as the function argument toRGB)
and published with frame_sender.try_send. When try_send returns an error
the loop executes a break, ending the drain for that submission. The list
of frames the decoder is willing to emit for the submission is the input
list; the function returns the final slot state together with the list of
converted frames for which a publish was attempted. -/

def drainFrames {α β : Type} (toRGB : α → β) :
    List α → Slot β → Slot β × List β
  | [], s => (s, [])
  | f :: rest, s =>
      let img := toRGB f
      match trySend img s with
      | (s1, true) =>
          let r := drainFrames toRGB rest s1
          (r.1, img :: r.2)
      | (s1, false) => (s1, [img])

/-! ### Reader and decoder loop termination (src/video/decoder.rs)

The StopSignal is an Arc of AtomicBool set exactly once and never reset
(spec section 3); it is modelled by the time flagSetAt at which it becomes
set: a load at iteration i observes the flag set iff flagSetAt ≤ i.

The reader thread (lines 58-67) iterates over the packets produced by the
capture source; at each iteration it first checks the stop flag and breaks
if set, otherwise try_sends the packet when it belongs to the video
stream. The loop also ends when the packet iterator is exhausted.

The decoder loop (lines 70-99) checks the stop flag in its while guard;
while unset it try_recvs a packet (processing it if present, yielding the
thread otherwise). Each model state records the iteration counter, whether
the loop has exited, and the iterations at which a packet was processed. -/

structure ReaderState where
  i : Nat
  stopped : Bool
  sent : List Nat
  deriving Repr, DecidableEq

def readerInit : ReaderState := { i := 0, stopped := false, sent := [] }

/-- One iteration of the packet reader loop. packets lists the
(stream index, packet) pairs the capture source produces, in order. -/
def readerStep (flagSetAt videoIdx : Nat) (packets : List (Nat × Nat))
    (s : ReaderState) : ReaderState :=
  if s.stopped then s
  else
    match packets[s.i]? with
    | none => { s with stopped := true }
    | some (idx, _) =>
        if flagSetAt ≤ s.i then { s with stopped := true }
        else if idx = videoIdx then
          { s with i := s.i + 1, sent := s.sent ++ [s.i] }
        else { s with i := s.i + 1 }

def readerRun (flagSetAt videoIdx : Nat) (packets : List (Nat × Nat)) :
    Nat → ReaderState
  | 0 => readerInit
  | n + 1 => readerStep flagSetAt videoIdx packets
      (readerRun flagSetAt videoIdx packets n)

structure DecoderState where
  i : Nat
  stopped : Bool
  processed : List Nat
  deriving Repr, DecidableEq

def decoderInit : DecoderState := { i := 0, stopped := false, processed := [] }

/-- One iteration of the decoder main loop. packetAt gives the packet the
single-slot handoff would deliver at a given iteration, if any. -/
def decoderStep (flagSetAt : Nat) (packetAt : Nat → Option Nat)
    (s : DecoderState) : DecoderState :=
  if s.stopped then s
  else if flagSetAt ≤ s.i then { s with stopped := true }
  else
    match packetAt s.i with
    | some _ => { s with i := s.i + 1, processed := s.processed ++ [s.i] }
    | none => { s with i := s.i + 1 }

def decoderRun (flagSetAt : Nat) (packetAt : Nat → Option Nat) :
    Nat → DecoderState
  | 0 => decoderInit
  | n + 1 => decoderStep flagSetAt packetAt (decoderRun flagSetAt packetAt n)

/-! ### Format tag normalization (src/video/decoder.rs lines 21-41)

video_thread_main first computes
pixel_format_str = format.fourcc.trim_end_matches(NUL).to_lowercase(),
then rewrites yuyv to yuyv422 and mjpg to mjpeg, and finally either sets
input_format = mjpeg with no pixel_format (when the normalized string is
mjpeg) or input_format = rawvideo with pixel_format = the normalized
string. Fourcc tags are ASCII, where Rust to_lowercase and Lean toLower
agree character by character. -/

/-- Model of str::trim_end_matches applied with the NUL character:
removes every trailing NUL from the string. -/
def trimEndNuls (s : String) : String :=
  String.mk ((s.data.reverse.dropWhile (fun c => c = Char.ofNat 0)).reverse)

/-- Model of str::to_lowercase: lowercases every character. Fourcc tags
are ASCII, where the per-character Unicode lowercase map agrees with
Char.toLower. -/
def toLowerStr (s : String) : String :=
  String.mk (s.data.map Char.toLower)

/-- Normalized pixel format string computed at src/video/decoder.rs
lines 21-26. -/
def normalizePixelFormat (fourcc : String) : String :=
  let p := toLowerStr (trimEndNuls fourcc)
  if p = "yuyv" then "yuyv422"
  else if p = "mjpg" then "mjpeg"
  else p

/-- FFmpeg open options derived from the format tag: the input_format
option plus the optional pixel_format hint (src/video/decoder.rs
lines 36-41). -/
structure CaptureOptions where
  input_format : String
  pixel_format : Option String
  deriving Repr, DecidableEq

/-- Option selection of src/video/decoder.rs lines 36-41: the mjpeg path
sets only input_format, every other normalized tag takes the rawvideo
path with the normalized tag as pixel_format hint. -/
def captureFormatOptions (fourcc : String) : CaptureOptions :=
  let p := normalizePixelFormat fourcc
  if p = "mjpeg" then { input_format := "mjpeg", pixel_format := none }
  else { input_format := "rawvideo", pixel_format := some p }

/-! ### Shader parameters and application state defaults

ShaderParams (src/video/gpu_filter.rs lines 684-713) and the plain-data
fields of AppState (src/app.rs lines 12-110). AppState fields holding OS
or GPU handles (thread handles, texture handles, channel receivers,
Instant timestamps, device lists) carry no default data relevant to any
claim and are omitted; every field with a literal default that
ShaderParams.from_state reads is present. Float fields are exact
rationals (see the file header). -/

structure ShaderParams where
  hard_scan : ℚ
  warp_x : ℚ
  warp_y : ℚ
  shadow_mask : ℚ
  brightboost : ℚ
  hard_bloom_pix : ℚ
  hard_bloom_scan : ℚ
  bloom_amount : ℚ
  shape : ℚ
  hard_pix : ℚ
  deriving Repr, DecidableEq

/-- Default for ShaderParams, src/video/gpu_filter.rs lines 698-713. -/
def ShaderParams.default : ShaderParams where
  hard_scan := -8.0
  warp_x := 0.031
  warp_y := 0.041
  shadow_mask := 3.0
  brightboost := 1.0
  hard_bloom_pix := -1.5
  hard_bloom_scan := -2.0
  bloom_amount := 0.15
  shape := 2.0
  hard_pix := -3.0

/-- Plain-data fields of AppState, src/app.rs lines 12-58. -/
structure AppState where
  selected_format_index : Nat
  selected_resolution : Nat × Nat
  selected_framerate : Nat
  is_fullscreen : Bool
  reset_usb_on_startup : Bool
  show_first_run_dialog : Bool
  show_quit_dialog : Bool
  show_stop_stream_dialog : Bool
  video_window_open : Bool
  pixelate_filter_enabled : Bool
  crt_hard_scan : ℚ
  crt_warp_x : ℚ
  crt_warp_y : ℚ
  crt_shadow_mask : ℚ
  crt_brightboost : ℚ
  crt_hard_bloom_pix : ℚ
  crt_hard_bloom_scan : ℚ
  crt_bloom_amount : ℚ
  crt_shape : ℚ
  crt_hard_pix : ℚ
  deriving Repr, DecidableEq

/-- Default for AppState, src/app.rs lines 60-110. -/
def AppState.default : AppState where
  selected_format_index := 0
  selected_resolution := (0, 0)
  selected_framerate := 0
  is_fullscreen := false
  reset_usb_on_startup := false
  show_first_run_dialog := false
  show_quit_dialog := false
  show_stop_stream_dialog := false
  video_window_open := false
  pixelate_filter_enabled := false
  crt_hard_scan := -8.0
  crt_warp_x := 0.031
  crt_warp_y := 0.041
  crt_shadow_mask := 3.0
  crt_brightboost := 1.0
  crt_hard_bloom_pix := -1.5
  crt_hard_bloom_scan := -2.0
  crt_bloom_amount := 0.15
  crt_shape := 2.0
  crt_hard_pix := -3.0

/-- ShaderParams.from_state, src/video/gpu_filter.rs lines 667-682. -/
def ShaderParams.from_state (state : AppState) : ShaderParams where
  hard_scan := state.crt_hard_scan
  warp_x := state.crt_warp_x
  warp_y := state.crt_warp_y
  shadow_mask := state.crt_shadow_mask
  brightboost := state.crt_brightboost
  hard_bloom_pix := state.crt_hard_bloom_pix
  hard_bloom_scan := state.crt_hard_bloom_scan
  bloom_amount := state.crt_bloom_amount
  shape := state.crt_shape
  hard_pix := state.crt_hard_pix

/-! ### Fragment shader semantics (src/video/gpu_filter.rs)

Colors are triples of rationals in linear space. Texture sampling is an
abstract function from texture coordinates to a linear color. The shaders
FS_PASSTHROUGH and FS_FINAL apply the fixed ToSrgb display encoding to the
linear color they computed just before writing out_color; ToSrgb is a
fixed injective per-channel transfer function, represented by the
FragColor.srgb constructor holding the linear color being encoded. -/

/-- Color value written by a fragment shader: either the opaque black
written on out-of-range coordinates, or the ToSrgb display encoding of a
linear color. -/
inductive FragColor where
  | black : FragColor
  | srgb (c : ℚ × ℚ × ℚ) : FragColor
  deriving Repr, DecidableEq

/-- Componentwise sum of two colors. -/
def addColor (a b : ℚ × ℚ × ℚ) : ℚ × ℚ × ℚ :=
  (a.1 + b.1, a.2.1 + b.2.1, a.2.2 + b.2.2)

/-- Componentwise product of two colors. -/
def mulColor (a b : ℚ × ℚ × ℚ) : ℚ × ℚ × ℚ :=
  (a.1 * b.1, a.2.1 * b.2.1, a.2.2 * b.2.2)

/-- Scalar multiple of a color. -/
def smulColor (k : ℚ) (a : ℚ × ℚ × ℚ) : ℚ × ℚ × ℚ :=
  (k * a.1, k * a.2.1, k * a.2.2)

/-- GLSL fract: x - floor x. -/
def qfract (x : ℚ) : ℚ := x - (Rat.floor x : ℚ)

/-- Letterbox/pillarbox scale factor computed identically in
FS_PASSTHROUGH (lines 53-62) and FS_FINAL (lines 242-252): compare the
video and output aspect ratios and shrink one axis. -/
def aspectScale (videoRes outputRes : ℚ × ℚ) : ℚ × ℚ :=
  let video_aspect := videoRes.1 / videoRes.2
  let output_aspect := outputRes.1 / outputRes.2
  if video_aspect > output_aspect then (1, output_aspect / video_aspect)
  else (video_aspect / output_aspect, 1)

/-- Aspect-corrected sampling coordinate of FS_PASSTHROUGH line 64:
centered_tc = (v_tc - 0.5) / scale + 0.5. -/
def centeredTC (videoRes outputRes : ℚ × ℚ) (tc : ℚ × ℚ) : ℚ × ℚ :=
  let scale := aspectScale videoRes outputRes
  ((tc.1 - 1/2) / scale.1 + 1/2, (tc.2 - 1/2) / scale.2 + 1/2)

/-- FS_PASSTHROUGH fragment shader (src/video/gpu_filter.rs lines 38-72):
black outside the letterboxed region, otherwise the ToSrgb encoding of
the texture sample at the aspect-corrected coordinate. -/
def passthroughShader (videoRes outputRes : ℚ × ℚ)
    (tex : ℚ × ℚ → ℚ × ℚ × ℚ) (tc : ℚ × ℚ) : FragColor :=
  let c := centeredTC videoRes outputRes tc
  if c.1 < 0 ∨ c.1 > 1 ∨ c.2 < 0 ∨ c.2 > 1 then FragColor.black
  else FragColor.srgb (tex c)

/-- Warp of FS_FINAL lines 199-203: barrel distortion of the sampling
coordinates controlled by warpX and warpY. -/
def warpFn (warpX warpY : ℚ) (pos : ℚ × ℚ) : ℚ × ℚ :=
  let p := (pos.1 * 2 - 1, pos.2 * 2 - 1)
  let q := (p.1 * (1 + p.2 * p.2 * warpX), p.2 * (1 + p.1 * p.1 * warpY))
  (q.1 * (1/2) + 1/2, q.2 * (1/2) + 1/2)

/-- Mask of FS_FINAL lines 205-239: one of five discrete shadow-mask
patterns selected by the shadowMask uniform. The values 0.333 and 0.666
are exact-decimal models of the float literals. -/
def maskFn (shadowMask : ℚ) (pos : ℚ × ℚ) : ℚ × ℚ × ℚ :=
  let maskDark : ℚ := 0.5
  let maskLight : ℚ := 1.5
  let rgbStripe : ℚ → ℚ × ℚ × ℚ := fun px =>
    if px < 0.333 then (maskLight, maskDark, maskDark)
    else if px < 0.666 then (maskDark, maskLight, maskDark)
    else (maskDark, maskDark, maskLight)
  if shadowMask = 1 then
    let odd : ℚ := if qfract (pos.1 / 6) < 0.5 then 1 else 0
    let line : ℚ := if qfract ((pos.2 + odd) / 2) < 0.5 then maskDark else maskLight
    smulColor line (rgbStripe (qfract (pos.1 / 3)))
  else if shadowMask = 2 then
    rgbStripe (qfract (pos.1 / 3))
  else if shadowMask = 3 then
    rgbStripe (qfract ((pos.1 + pos.2 * 3) / 6))
  else if shadowMask = 4 then
    let fx : ℚ := (Rat.floor pos.1 : ℚ)
    let fy : ℚ := (Rat.floor (pos.2 * 0.5) : ℚ)
    rgbStripe (qfract ((fx + fy * 3) / 6))
  else
    (maskDark, maskDark, maskDark)

/-- FS_FINAL fragment shader (src/video/gpu_filter.rs lines 175-276),
generic in the mask function it would consult: the composite
scanline + bloom * bloomAmount is computed at the warped, aspect-corrected
coordinate, multiplied by maskF (only when shadowMask > 0), scaled by
brightboost and ToSrgb-encoded. The shader as compiled is finalShader
applied to maskFn p.shadow_mask. -/
def finalShader (maskF : ℚ × ℚ → ℚ × ℚ × ℚ) (p : ShaderParams)
    (videoRes outputRes : ℚ × ℚ)
    (bloomTex scanTex : ℚ × ℚ → ℚ × ℚ × ℚ) (tc : ℚ × ℚ) : FragColor :=
  let scale := aspectScale videoRes outputRes
  let wtc := warpFn p.warp_x p.warp_y tc
  let wpos := ((wtc.1 - 1/2) / scale.1 + 1/2, (wtc.2 - 1/2) / scale.2 + 1/2)
  if wpos.1 < 0 ∨ wpos.1 > 1 ∨ wpos.2 < 0 ∨ wpos.2 > 1 then FragColor.black
  else
    let scanline_color := scanTex wpos
    let bloom_color := bloomTex wpos
    let fc := addColor scanline_color (smulColor p.bloom_amount bloom_color)
    let fc :=
      if p.shadow_mask > 0 then
        mulColor fc (maskF
          ((Rat.floor (tc.1 * outputRes.1) : ℚ) + 1/2,
           (Rat.floor (tc.2 * outputRes.2) : ℚ) + 1/2))
      else fc
    FragColor.srgb (smulColor p.brightboost fc)

/-- FS_FINAL with its own Mask function, as compiled. -/
def fsFinalOutput (p : ShaderParams) (videoRes outputRes : ℚ × ℚ)
    (bloomTex scanTex : ℚ × ℚ → ℚ × ℚ × ℚ) (tc : ℚ × ℚ) : FragColor :=
  finalShader (maskFn p.shadow_mask) p videoRes outputRes bloomTex scanTex tc

/-! ### Render graph orchestration (src/video/gpu_filter.rs lines 446-631)

CrtFilterRenderer.paint and draw_passthrough are modelled as pure
functions returning the sequence of GL events they issue, in source
order. A draw call records the render target (one of the five offscreen
framebuffers, or the default framebuffer of the screen), the program, the
textures bound to units 0 and 1, the viewport, and - for offscreen
targets - the size at which the target framebuffer texture storage was
last allocated (none when never allocated). Vertex-array bindings are
recorded as the raw GL binding id, 0 meaning no binding, matching the
VERTEX_ARRAY_BINDING integer the source reads and restores. -/

inductive TexRef where
  | video : TexRef
  | pass (i : Fin 5) : TexRef
  deriving Repr, DecidableEq

inductive PassProgram where
  | passthrough | pixelate | pass0 | pass1 | pass2 | pass3 | final
  deriving Repr, DecidableEq

inductive RenderTarget where
  | offscreen (i : Fin 5) : RenderTarget
  | screen : RenderTarget
  deriving Repr, DecidableEq

structure DrawCall where
  target : RenderTarget
  program : PassProgram
  tex0 : TexRef
  tex1 : Option TexRef
  viewport : Nat × Nat
  fbSize : Option (Nat × Nat)
  deriving Repr, DecidableEq

inductive GlEvent where
  | alloc (size : Nat × Nat) : GlEvent
  | draw (d : DrawCall) : GlEvent
  | bindVao (v : Nat) : GlEvent
  deriving Repr, DecidableEq

def GlEvent.isAlloc : GlEvent → Bool
  | .alloc _ => true
  | _ => false

def GlEvent.isDraw : GlEvent → Bool
  | .draw _ => true
  | _ => false

/-- Offscreen draw predicate together with the allocation size the draw
sees on its target framebuffer. -/
def GlEvent.isOffscreenDraw : GlEvent → Bool
  | .draw d => match d.target with
    | .offscreen _ => true
    | .screen => false
  | _ => false

/-- Renderer state relevant to framebuffer sizing: last_size
(src/video/gpu_filter.rs line 320) and the size at which the five pass
texture storages were last allocated by setup_framebuffers (none before
the first allocation; the constructor creates the texture objects
unsized). -/
structure RendererState where
  last_size : Nat × Nat
  texSize : Option (Nat × Nat)
  deriving Repr, DecidableEq

/-- Renderer state right after CrtFilterRenderer::new
(src/video/gpu_filter.rs line 441): last_size = (0, 0), textures created
but their storage never allocated. -/
def newRendererState : RendererState :=
  { last_size := (0, 0), texSize := none }

/-- setup_framebuffers (src/video/gpu_filter.rs lines 598-630):
reallocates the storage of all five pass textures to width x height and
re-attaches them to the five framebuffers. It does not touch last_size;
paint updates that separately. -/
def setup_framebuffers (s : RendererState) (width height : Nat) :
    RendererState × List GlEvent :=
  ({ s with texSize := some (width, height) }, [GlEvent.alloc (width, height)])

/-- Draw-call event constructor: target, program, texture unit 0, texture
unit 1, viewport, allocated size of the target framebuffer texture. -/
def mkDraw (t : RenderTarget) (p : PassProgram) (t0 : TexRef)
    (t1 : Option TexRef) (vp : Nat × Nat) (fb : Option (Nat × Nat)) : GlEvent :=
  GlEvent.draw ⟨t, p, t0, t1, vp, fb⟩

/-- Pixelate pass of paint (src/video/gpu_filter.rs lines 464-474): when
run_pixelate holds, one offscreen draw into framebuffer 4 with the
pixelate program sampling the decoded video texture. -/
def paintPixelateEvents (run_pixelate : Bool) (resolution : Nat × Nat)
    (fb : Option (Nat × Nat)) : List GlEvent :=
  if run_pixelate then
    [mkDraw (RenderTarget.offscreen 4) PassProgram.pixelate TexRef.video none resolution fb]
  else []

/-- Main branch of paint (src/video/gpu_filter.rs lines 476-543): the
five Lottes passes when run_lottes holds, otherwise the single
aspect-correct passthrough composite of the pixelate output when only
run_pixelate holds, otherwise nothing. -/
def paintMainEvents (run_pixelate run_lottes : Bool) (lottes_input : TexRef)
    (resolution outputSize : Nat × Nat) (fb : Option (Nat × Nat)) : List GlEvent :=
  if run_lottes then
    [mkDraw (RenderTarget.offscreen 0) PassProgram.pass0 lottes_input none resolution fb,
     mkDraw (RenderTarget.offscreen 1) PassProgram.pass1 (TexRef.pass 0) none resolution fb,
     mkDraw (RenderTarget.offscreen 2) PassProgram.pass2 lottes_input none resolution fb,
     mkDraw (RenderTarget.offscreen 3) PassProgram.pass3 (TexRef.pass 2) none resolution fb,
     mkDraw RenderTarget.screen PassProgram.final (TexRef.pass 1) (some (TexRef.pass 3)) outputSize none]
  else if run_pixelate then
    [mkDraw RenderTarget.screen PassProgram.passthrough lottes_input none outputSize none]
  else []

/-- Vertex-array restore at the end of paint (src/video/gpu_filter.rs
lines 545-553): bind_vertex_array(None), then rebind the entry binding
when it was nonzero, else bind None again (binding 0). -/
def paintRestoreEvents (entryVao : Nat) : List GlEvent :=
  [GlEvent.bindVao 0,
   if entryVao ≠ 0 then GlEvent.bindVao entryVao else GlEvent.bindVao 0]

/-- CrtFilterRenderer::paint (src/video/gpu_filter.rs lines 446-555) as a
trace-producing function. Arguments: renderer state, the GL id of the
renderer's own vertex array, the VERTEX_ARRAY_BINDING value current on
entry, the capture resolution, the output (display) size, the shader
parameters and the two toggles. Returns the updated state and the GL
event trace. -/
def CrtFilterRenderer.paint (s : RendererState) (rendererVao entryVao : Nat)
    (resolution outputSize : Nat × Nat) (params : ShaderParams)
    (run_pixelate run_lottes : Bool) : RendererState × List GlEvent :=
  let resized :=
    if s.last_size ≠ resolution then
      let r := setup_framebuffers s resolution.1 resolution.2
      ({ r.1 with last_size := resolution }, r.2)
    else (s, [])
  let s1 := resized.1
  let fb := s1.texSize
  let lottes_input : TexRef := if run_pixelate then TexRef.pass 4 else TexRef.video
  (s1, resized.2 ++ [GlEvent.bindVao rendererVao]
    ++ paintPixelateEvents run_pixelate resolution fb
    ++ paintMainEvents run_pixelate run_lottes lottes_input resolution outputSize fb
    ++ paintRestoreEvents entryVao)

/-- CrtFilterRenderer::draw_passthrough (src/video/gpu_filter.rs lines
557-576). The restore at line 574 calls NonZero::new(old_vbo).unwrap(),
which panics when the entry binding is 0; the Bool result is false when
the call panics (events before the panic have already been issued). -/
def CrtFilterRenderer.draw_passthrough (rendererVao entryVao : Nat)
    (resolution outputSize : Nat × Nat) : List GlEvent × Bool :=
  let events : List GlEvent :=
    [GlEvent.bindVao rendererVao,
     mkDraw RenderTarget.screen PassProgram.passthrough TexRef.video none outputSize none]
  if entryVao = 0 then (events, false)
  else (events ++ [GlEvent.bindVao entryVao], true)

/-- Value of the VERTEX_ARRAY_BINDING GL state after a trace of events,
starting from the binding current on entry. -/
def finalVaoBinding (events : List GlEvent) (entryVao : Nat) : Nat :=
  events.foldl (fun acc e => match e with
    | GlEvent.bindVao v => v
    | _ => acc) entryVao

/-- Invariant of claim C7: last_size equals the size at which the pass
textures were last allocated, except in the never-allocated initial
state where last_size is still (0, 0). -/
def RendererState.sizeInv (s : RendererState) : Prop :=
  s.texSize = some s.last_size ∨ (s.texSize = none ∧ s.last_size = (0, 0))

/-! ## Theorems -/

/-! ### Claim C10: the two default parameter sets agree -/

/-- C10: ShaderParams::default() equals, field for field,
ShaderParams::from_state applied to AppState::default(): the ten float
defaults written independently at src/video/gpu_filter.rs lines 698-713
and src/app.rs lines 98-107 coincide. -/
theorem shaderParams_default_agrees_with_appState :
    ShaderParams.from_state AppState.default = ShaderParams.default := rfl

/-! ### Claim C1: single-slot handoff semantics -/

/-- C1 counterexample: two non-blocking publishes of 1 then 2 into an
empty slot with no intervening consume leave the first value in the slot;
the consumer observes 1, not the most recent value 2. The claim that the
consumer observes exactly the Nth published value fails at N = 2. -/
theorem publish_twice_consumer_observes_first :
    (tryRecv (publishN [1, 2] (none : Slot Nat))).1 = some 1 ∧
    (tryRecv (publishN [1, 2] (none : Slot Nat))).1 ≠ some 2 := by
  constructor
  · rfl
  · decide

/-- C1 amended: for both bounded(1) handoffs, after one or more
non-blocking publishes without an intervening consume, the consumer
observes exactly the first published value; a publish that finds the slot
occupied fails and the newer value is silently dropped, the slot keeping
its old value, and the publisher never blocks (trySend returns
immediately in both cases). -/
theorem singleSlot_first_value_wins {α : Type} (v : α) (rest : List α)
    (vs : List α) (w : α) :
    (tryRecv (publishN (v :: rest) (none : Slot α))).1 = some v ∧
    publishN vs (some w) = some w ∧
    (trySend v (some w) = (some w, false) ∧ trySend v (none : Slot α) = (some v, true)) := by
  refine ⟨?_, publishN_occupied vs w, rfl, rfl⟩
  have h : publishN (v :: rest) (none : Slot α) = some v := publishN_occupied rest v
  rw [h]
  rfl

/-! ### Claim C2: the decoder drain loop -/

/-- C2 counterexample: with the render-side slot initially empty and a
decoder willing to emit three frames for one submission, only the first
two frames are converted and given a publish attempt: the first publish
fills the slot, the second publish fails and the break at
src/video/decoder.rs line 93 ends the drain, so the third frame is never
drained. The claim that every emitted frame is converted and attempted
fails. -/
theorem drain_stops_after_failed_publish :
    (drainFrames (fun n : Nat => n) [10, 20, 30] (none : Slot Nat)).2 = [10, 20] ∧
    (drainFrames (fun n : Nat => n) [10, 20, 30] (none : Slot Nat)).2 ≠ [10, 20, 30] := by
  constructor
  · rfl
  · decide

/-- C2 amended: for every packet the decoder loop polls, frames are
drained until the decoder stops emitting or a publish attempt fails; each
drained frame is converted to packed RGB and a publish is attempted; a
publish that finds the render-side slot occupied drops that new frame,
leaves the slot unchanged, and ends the drain for that submission rather
than blocking the decode loop. Consequently the frames attempted are the
first min(2, emitted) frames when the slot starts empty and the first
min(1, emitted) frame when it starts occupied. -/
theorem drainFrames_attempts_until_failure {α β : Type} (toRGB : α → β)
    (frames : List α) (slot : Slot β) (w : β) :
    (drainFrames toRGB frames slot).2 =
      (frames.take (if slot.isSome then 1 else 2)).map toRGB ∧
    (drainFrames toRGB frames (some w)).1 = some w := by
  constructor
  · cases slot with
    | none =>
      cases frames with
      | nil => rfl
      | cons f rest =>
        cases rest with
        | nil => rfl
        | cons g rest2 => rfl
    | some w0 =>
      cases frames with
      | nil => rfl
      | cons f rest => rfl
  · cases frames with
    | nil => rfl
    | cons f rest => rfl

/-! ### Claim C4: format tag normalization -/

/-- C4 counterexample: the unrecognized tag RGB3 is not passed through
unmodified; src/video/decoder.rs line 21 lowercases every tag (after
trimming trailing NULs), so the pixel-format hint handed to the raw path
is rgb3, not RGB3. -/
theorem format_tag_not_passed_unmodified :
    captureFormatOptions "RGB3" =
      { input_format := "rawvideo", pixel_format := some "rgb3" } ∧
    captureFormatOptions "RGB3" ≠
      { input_format := "rawvideo", pixel_format := some "RGB3" } := by
  constructor
  · rfl
  · decide

/-- C4 amended: tag YUYV selects the raw-pixel path with pixel-format
hint yuyv422, tag MJPG selects the compressed path with input-format
mjpeg and no pixel-format hint, and every other tag is trimmed of
trailing NULs and lowercased; if the result equals mjpeg it takes the
compressed path, otherwise it is passed as the pixel-format hint on the
raw path. -/
theorem captureFormatOptions_characterization (fourcc : String) :
    captureFormatOptions "YUYV" =
      { input_format := "rawvideo", pixel_format := some "yuyv422" } ∧
    captureFormatOptions "MJPG" =
      { input_format := "mjpeg", pixel_format := none } ∧
    captureFormatOptions fourcc =
      (if toLowerStr (trimEndNuls fourcc) = "yuyv" then
        { input_format := "rawvideo", pixel_format := some "yuyv422" }
      else if toLowerStr (trimEndNuls fourcc) = "mjpg" ∨
          toLowerStr (trimEndNuls fourcc) = "mjpeg" then
        { input_format := "mjpeg", pixel_format := none }
      else
        { input_format := "rawvideo",
          pixel_format := some (toLowerStr (trimEndNuls fourcc)) }) := by
  refine ⟨rfl, rfl, ?_⟩
  unfold captureFormatOptions normalizePixelFormat
  by_cases h1 : toLowerStr (trimEndNuls fourcc) = "yuyv"
  · simp [h1]
  · by_cases h2 : toLowerStr (trimEndNuls fourcc) = "mjpg"
    · simp [h1, h2]
    · by_cases h3 : toLowerStr (trimEndNuls fourcc) = "mjpeg"
      · simp [h1, h2, h3]
      · simp [h1, h2, h3]

/-! ### Claim C3: StopSignal halts both loops -/

theorem readerStep_of_stopped (f v : Nat) (ps : List (Nat × Nat))
    (s : ReaderState) (h : s.stopped = true) :
    readerStep f v ps s = s := by
  simp [readerStep, h]

theorem decoderStep_of_stopped (f : Nat) (pa : Nat → Option Nat)
    (s : DecoderState) (h : s.stopped = true) :
    decoderStep f pa s = s := by
  simp [decoderStep, h]

theorem readerStep_stops (f v : Nat) (ps : List (Nat × Nat)) (s : ReaderState)
    (h : s.stopped = true ∨ ps[s.i]? = none ∨ f ≤ s.i) :
    (readerStep f v ps s).stopped = true := by
  by_cases h1 : s.stopped = true
  · rw [readerStep_of_stopped f v ps s h1]; exact h1
  · unfold readerStep
    rcases h with h | h | h
    · exact absurd h h1
    · simp [h1, h]
    · cases hg : ps[s.i]? with
      | none => simp [h1, hg]
      | some p =>
        obtain ⟨idx, pk⟩ := p
        simp [h1, hg, h]

theorem readerRun_stopped_or_index (f v : Nat) (ps : List (Nat × Nat)) :
    ∀ n, (readerRun f v ps n).stopped = true ∨ (readerRun f v ps n).i = n := by
  intro n
  induction n with
  | zero => exact Or.inr rfl
  | succ n ih =>
    by_cases h1 : (readerRun f v ps n).stopped = true
    · left
      rw [readerRun, readerStep_of_stopped f v ps _ h1]
      exact h1
    · have hi : (readerRun f v ps n).i = n := ih.resolve_left h1
      rw [readerRun]
      unfold readerStep
      rw [hi]
      cases hg : ps[n]? with
      | none => simp [h1, hg]
      | some p =>
        obtain ⟨idx, pk⟩ := p
        by_cases h2 : f ≤ n
        · simp [h1, hg, h2]
        · by_cases h3 : idx = v <;> simp [h1, hg, h2, h3]

theorem readerRun_halts (f v : Nat) (ps : List (Nat × Nat)) (m : Nat) :
    (readerRun f v ps (min f ps.length + 1 + m)).stopped = true := by
  induction m with
  | zero =>
    show (readerStep f v ps (readerRun f v ps (min f ps.length))).stopped = true
    apply readerStep_stops
    rcases readerRun_stopped_or_index f v ps (min f ps.length) with h | h
    · exact Or.inl h
    · rcases Nat.le_total f ps.length with hle | hle
      · right; right
        rw [h]
        omega
      · right; left
        rw [h]
        apply List.getElem?_eq_none
        omega
  | succ m ih =>
    show (readerStep f v ps (readerRun f v ps (min f ps.length + 1 + m))).stopped = true
    rw [readerStep_of_stopped f v ps _ ih]
    exact ih

theorem readerRun_sent_lt (f v : Nat) (ps : List (Nat × Nat)) :
    ∀ n, ∀ j ∈ (readerRun f v ps n).sent, j < f := by
  intro n
  induction n with
  | zero =>
    intro j hj
    simp [readerRun, readerInit] at hj
  | succ n ih =>
    intro j hj
    rw [readerRun] at hj
    by_cases h1 : (readerRun f v ps n).stopped = true
    · rw [readerStep_of_stopped f v ps _ h1] at hj
      exact ih j hj
    · unfold readerStep at hj
      cases hg : ps[(readerRun f v ps n).i]? with
      | none =>
        simp [h1, hg] at hj
        exact ih j hj
      | some p =>
        obtain ⟨idx, pk⟩ := p
        simp [h1, hg] at hj
        by_cases h2 : f ≤ (readerRun f v ps n).i
        · simp [h2] at hj
          exact ih j hj
        · simp [h2] at hj
          by_cases h3 : idx = v
          · simp [h3] at hj
            rcases hj with hj | hj
            · exact ih j hj
            · subst hj; omega
          · simp [h3] at hj
            exact ih j hj

theorem decoderRun_stopped_or_index (f : Nat) (pa : Nat → Option Nat) :
    ∀ n, (decoderRun f pa n).stopped = true ∨ (decoderRun f pa n).i = n := by
  intro n
  induction n with
  | zero => exact Or.inr rfl
  | succ n ih =>
    by_cases h1 : (decoderRun f pa n).stopped = true
    · left
      rw [decoderRun, decoderStep_of_stopped f pa _ h1]
      exact h1
    · have hi : (decoderRun f pa n).i = n := ih.resolve_left h1
      rw [decoderRun]
      unfold decoderStep
      rw [hi]
      by_cases h2 : f ≤ n
      · simp [h1, h2]
      · cases hg : pa n with
        | none => right; simp [h1, h2, hg]
        | some p => right; simp [h1, h2, hg]

theorem decoderRun_halts (f : Nat) (pa : Nat → Option Nat) (m : Nat) :
    (decoderRun f pa (f + 1 + m)).stopped = true := by
  induction m with
  | zero =>
    show (decoderStep f pa (decoderRun f pa f)).stopped = true
    by_cases h1 : (decoderRun f pa f).stopped = true
    · rw [decoderStep_of_stopped f pa _ h1]; exact h1
    · have hi : (decoderRun f pa f).i = f :=
        (decoderRun_stopped_or_index f pa f).resolve_left h1
      unfold decoderStep
      rw [hi]
      simp [h1]
  | succ m ih =>
    show (decoderStep f pa (decoderRun f pa (f + 1 + m))).stopped = true
    rw [decoderStep_of_stopped f pa _ ih]
    exact ih

theorem decoderRun_processed_lt (f : Nat) (pa : Nat → Option Nat) :
    ∀ n, ∀ j ∈ (decoderRun f pa n).processed, j < f := by
  intro n
  induction n with
  | zero =>
    intro j hj
    simp [decoderRun, decoderInit] at hj
  | succ n ih =>
    intro j hj
    rw [decoderRun] at hj
    by_cases h1 : (decoderRun f pa n).stopped = true
    · rw [decoderStep_of_stopped f pa _ h1] at hj
      exact ih j hj
    · unfold decoderStep at hj
      by_cases h2 : f ≤ (decoderRun f pa n).i
      · simp [h1, h2] at hj
        exact ih j hj
      · cases hg : pa (decoderRun f pa n).i with
        | none =>
          simp [h1, h2, hg] at hj
          exact ih j hj
        | some p =>
          simp [h1, h2, hg] at hj
          rcases hj with hj | hj
          · exact ih j hj
          · subst hj; omega

/-- C3: once the StopSignal is set (observed set from iteration flagSetAt
on, since the flag is set once and never reset), the packet reader loop
has exited within min(flagSetAt, number of source packets) + 1 iterations
and the decoder loop within flagSetAt + 1 iterations, both staying exited
forever after; and at no point does either loop process (try_send,
respectively poll and submit) a packet at an iteration at which the flag
was observed set: every processed iteration index is below flagSetAt. -/
theorem stop_signal_halts_both_loops (flagSetAt videoIdx : Nat)
    (packets : List (Nat × Nat)) (packetAt : Nat → Option Nat) (n m : Nat) :
    (readerRun flagSetAt videoIdx packets
      (min flagSetAt packets.length + 1 + m)).stopped = true ∧
    (decoderRun flagSetAt packetAt (flagSetAt + 1 + m)).stopped = true ∧
    (∀ j ∈ (readerRun flagSetAt videoIdx packets n).sent, j < flagSetAt) ∧
    (∀ j ∈ (decoderRun flagSetAt packetAt n).processed, j < flagSetAt) :=
  ⟨readerRun_halts flagSetAt videoIdx packets m,
   decoderRun_halts flagSetAt packetAt m,
   readerRun_sent_lt flagSetAt videoIdx packets n,
   decoderRun_processed_lt flagSetAt packetAt n⟩

/-! ### Render graph helper lemmas -/

theorem isAlloc_alloc (sz : Nat × Nat) : (GlEvent.alloc sz).isAlloc = true := rfl

theorem isAlloc_draw (d : DrawCall) : (GlEvent.draw d).isAlloc = false := rfl

theorem isAlloc_bindVao (v : Nat) : (GlEvent.bindVao v).isAlloc = false := rfl

theorem isDraw_alloc (sz : Nat × Nat) : (GlEvent.alloc sz).isDraw = false := rfl

theorem isDraw_draw (d : DrawCall) : (GlEvent.draw d).isDraw = true := rfl

theorem isDraw_bindVao (v : Nat) : (GlEvent.bindVao v).isDraw = false := rfl

theorem isAlloc_mkDraw (t : RenderTarget) (p : PassProgram) (t0 : TexRef)
    (t1 : Option TexRef) (vp : Nat × Nat) (fb : Option (Nat × Nat)) :
    (mkDraw t p t0 t1 vp fb).isAlloc = false := rfl

theorem isDraw_mkDraw (t : RenderTarget) (p : PassProgram) (t0 : TexRef)
    (t1 : Option TexRef) (vp : Nat × Nat) (fb : Option (Nat × Nat)) :
    (mkDraw t p t0 t1 vp fb).isDraw = true := rfl

attribute [simp] isAlloc_alloc isAlloc_draw isAlloc_bindVao isDraw_alloc
  isDraw_draw isDraw_bindVao isAlloc_mkDraw isDraw_mkDraw

/-- After any paint call on a state satisfying the size invariant with a
nonzero capture resolution, the renderer state records exactly that
resolution, both as last_size and as the allocated texture size. -/
theorem paint_state_eq (s : RendererState) (rv ev : Nat)
    (res out : Nat × Nat) (p : ShaderParams) (px lt : Bool)
    (hres : res ≠ (0, 0)) (hinv : s.sizeInv) :
    (CrtFilterRenderer.paint s rv ev res out p px lt).1 =
      { last_size := res, texSize := some res } := by
  obtain ⟨ls, ts⟩ := s
  unfold CrtFilterRenderer.paint setup_framebuffers
  by_cases hne : ls ≠ res
  · simp [hne]
  · push_neg at hne
    rcases hinv with h | ⟨h1, h2⟩
    · simp only at h
      simp [hne, h]
    · simp only at h1 h2
      rw [hne] at h2
      exact absurd h2 hres

/-- Decomposition of the paint event trace: the optional reallocation
comes first, before any draw, followed by the vertex-array bind, the
pass draws, and the vertex-array restore. -/
theorem paint_events_eq (s : RendererState) (rv ev : Nat)
    (res out : Nat × Nat) (p : ShaderParams) (px lt : Bool) :
    (CrtFilterRenderer.paint s rv ev res out p px lt).2 =
      (if s.last_size ≠ res then [GlEvent.alloc res] else [])
      ++ [GlEvent.bindVao rv]
      ++ paintPixelateEvents px res
          (CrtFilterRenderer.paint s rv ev res out p px lt).1.texSize
      ++ paintMainEvents px lt (if px then TexRef.pass 4 else TexRef.video)
          res out (CrtFilterRenderer.paint s rv ev res out p px lt).1.texSize
      ++ paintRestoreEvents ev := by
  unfold CrtFilterRenderer.paint setup_framebuffers
  by_cases hne : s.last_size ≠ res <;> simp [hne]

theorem mem_paintPixelateEvents (px : Bool) (res : Nat × Nat)
    (fb : Option (Nat × Nat)) (d : DrawCall)
    (h : GlEvent.draw d ∈ paintPixelateEvents px res fb) :
    d.fbSize = fb := by
  cases px with
  | false => simp [paintPixelateEvents] at h
  | true =>
    simp [paintPixelateEvents, mkDraw] at h
    rw [h]

theorem mem_paintMainEvents (px lt : Bool) (li : TexRef)
    (res out : Nat × Nat) (fb : Option (Nat × Nat)) (d : DrawCall)
    (h : GlEvent.draw d ∈ paintMainEvents px lt li res out fb)
    (hs : d.target ≠ RenderTarget.screen) :
    d.fbSize = fb := by
  cases lt with
  | true =>
    simp [paintMainEvents, mkDraw] at h
    rcases h with h | h | h | h | h <;> rw [h] at hs ⊢ <;>
      first
      | rfl
      | exact absurd rfl hs
  | false =>
    cases px with
    | false => simp [paintMainEvents] at h
    | true =>
      simp [paintMainEvents, mkDraw] at h
      rw [h] at hs
      exact absurd rfl hs

theorem paintPixelateEvents_no_alloc (px : Bool) (res : Nat × Nat)
    (fb : Option (Nat × Nat)) :
    ∀ e ∈ paintPixelateEvents px res fb, e.isAlloc = false := by
  intro e he
  cases px with
  | false => simp [paintPixelateEvents] at he
  | true =>
    simp [paintPixelateEvents] at he
    rw [he]
    rfl

theorem paintMainEvents_no_alloc (px lt : Bool) (li : TexRef)
    (res out : Nat × Nat) (fb : Option (Nat × Nat)) :
    ∀ e ∈ paintMainEvents px lt li res out fb, e.isAlloc = false := by
  intro e he
  cases lt with
  | true =>
    simp [paintMainEvents] at he
    rcases he with h | h | h | h | h <;> rw [h] <;> rfl
  | false =>
    cases px with
    | false => simp [paintMainEvents] at he
    | true =>
      simp [paintMainEvents] at he
      rw [he]
      rfl

theorem paintRestoreEvents_no_alloc (ev : Nat) :
    ∀ e ∈ paintRestoreEvents ev, e.isAlloc = false := by
  intro e he
  by_cases h : ev ≠ 0
  · simp [paintRestoreEvents, h] at he
    rcases he with h1 | h1 <;> simp [h1]
  · simp [paintRestoreEvents, h] at he
    rw [he]
    rfl

theorem finalVaoBinding_append (xs ys : List GlEvent) (e : Nat) :
    finalVaoBinding (xs ++ ys) e = finalVaoBinding ys (finalVaoBinding xs e) := by
  unfold finalVaoBinding
  exact List.foldl_append _ _ _ _

theorem finalVaoBinding_restore (ev x : Nat) :
    finalVaoBinding (paintRestoreEvents ev) x = ev := by
  by_cases h : ev ≠ 0
  · simp [paintRestoreEvents, h, finalVaoBinding]
  · push_neg at h
    simp [paintRestoreEvents, h, finalVaoBinding]

/-! ### Claim C6: shadow_mask = 0 makes the final pass mask-independent -/

/-- C6: when the shadow_mask parameter is 0, the guard at FS_FINAL line
268 skips the mask multiplication, so the final composite output is the
same for any two mask functions whatsoever - in particular for any two
of the five patterns maskFn 0 .. maskFn 4 the selection logic could have
chosen - at every fragment and for all resolutions, textures and other
parameters. -/
theorem final_pass_independent_of_mask (p : ShaderParams)
    (videoRes outputRes : ℚ × ℚ) (bloomTex scanTex : ℚ × ℚ → ℚ × ℚ × ℚ)
    (tc : ℚ × ℚ) (h : p.shadow_mask = 0)
    (m1 m2 : ℚ × ℚ → ℚ × ℚ × ℚ) :
    finalShader m1 p videoRes outputRes bloomTex scanTex tc =
      finalShader m2 p videoRes outputRes bloomTex scanTex tc := by
  simp [finalShader, h]

/-- C6 witness: a concrete shadow_mask = 0 parameter set, with the
compressed-TV and VGA mask patterns as the two mask functions. -/
theorem final_pass_independent_of_mask_witness :
    (⟨-8, 0.031, 0.041, 0, 1, -1.5, -2, 0.15, 2, -3⟩ : ShaderParams).shadow_mask = 0 ∧
    finalShader (maskFn 1) ⟨-8, 0.031, 0.041, 0, 1, -1.5, -2, 0.15, 2, -3⟩
      (4, 3) (16, 9) (fun _ => (1, 0, 0)) (fun _ => (0, 1, 0)) (1/2, 1/2) =
    finalShader (maskFn 4) ⟨-8, 0.031, 0.041, 0, 1, -1.5, -2, 0.15, 2, -3⟩
      (4, 3) (16, 9) (fun _ => (1, 0, 0)) (fun _ => (0, 1, 0)) (1/2, 1/2) :=
  ⟨rfl, final_pass_independent_of_mask _ _ _ _ _ _ rfl (maskFn 1) (maskFn 4)⟩

/-! ### Claim C7: framebuffer reallocation on resolution change -/

/-- C7: at the start of every paint call the capture resolution is
compared with last_size; on mismatch all five pass framebuffers are
reallocated to the new resolution before any draw (the only allocation
event precedes every other event of the trace), and afterwards last_size
and the allocated texture size both equal the current resolution, so
every offscreen draw of the call runs against framebuffers sized exactly
to the capture resolution; the invariant that last_size equals the size
at which the pass textures were last allocated is preserved. -/
theorem paint_reallocates_before_draws (s : RendererState) (rv ev : Nat)
    (res out : Nat × Nat) (p : ShaderParams) (px lt : Bool)
    (hres : res ≠ (0, 0)) (hinv : s.sizeInv) :
    (CrtFilterRenderer.paint s rv ev res out p px lt).1.last_size = res ∧
    (CrtFilterRenderer.paint s rv ev res out p px lt).1.texSize = some res ∧
    (CrtFilterRenderer.paint s rv ev res out p px lt).1.sizeInv ∧
    (∀ d : DrawCall,
      GlEvent.draw d ∈ (CrtFilterRenderer.paint s rv ev res out p px lt).2 →
      d.target ≠ RenderTarget.screen → d.fbSize = some res) ∧
    (∃ t, (CrtFilterRenderer.paint s rv ev res out p px lt).2 =
        (if s.last_size ≠ res then GlEvent.alloc res :: t else t) ∧
      ∀ e ∈ t, e.isAlloc = false) := by
  have hstate := paint_state_eq s rv ev res out p px lt hres hinv
  have hevents := paint_events_eq s rv ev res out p px lt
  refine ⟨by rw [hstate], by rw [hstate], ?_, ?_, ?_⟩
  · rw [hstate]
    exact Or.inl rfl
  · intro d hd hscreen
    rw [hevents, hstate] at hd
    simp only [List.mem_append] at hd
    rcases hd with ((((hd | hd) | hd) | hd) | hd)
    · by_cases hne : s.last_size ≠ res <;> simp [hne] at hd
    · simp at hd
    · exact mem_paintPixelateEvents px res _ d hd
    · exact mem_paintMainEvents px lt _ res out _ d hd hscreen
    · by_cases h0 : ev ≠ 0 <;> simp [paintRestoreEvents, h0] at hd
  · refine ⟨[GlEvent.bindVao rv]
        ++ paintPixelateEvents px res (some res)
        ++ paintMainEvents px lt (if px then TexRef.pass 4 else TexRef.video)
            res out (some res)
        ++ paintRestoreEvents ev, ?_, ?_⟩
    · rw [hevents, hstate]
      by_cases hne : s.last_size ≠ res <;> simp [hne]
    · intro e he
      simp only [List.mem_append] at he
      rcases he with ((he | he) | he) | he
      · simp at he
        rw [he]
        rfl
      · exact paintPixelateEvents_no_alloc px res _ e he
      · exact paintMainEvents_no_alloc px lt _ res out _ e he
      · exact paintRestoreEvents_no_alloc ev e he

/-- C7 witness: a 640x480 paint call on the freshly constructed
renderer. -/
theorem paint_reallocates_before_draws_witness :
    (640, 480) ≠ ((0, 0) : Nat × Nat) ∧ newRendererState.sizeInv ∧
    ((CrtFilterRenderer.paint newRendererState 7 3 (640, 480) (800, 600)
        ShaderParams.default true true).1.last_size = (640, 480) ∧
     (CrtFilterRenderer.paint newRendererState 7 3 (640, 480) (800, 600)
        ShaderParams.default true true).1.texSize = some (640, 480) ∧
     (CrtFilterRenderer.paint newRendererState 7 3 (640, 480) (800, 600)
        ShaderParams.default true true).1.sizeInv ∧
     (∀ d : DrawCall,
       GlEvent.draw d ∈ (CrtFilterRenderer.paint newRendererState 7 3 (640, 480) (800, 600)
          ShaderParams.default true true).2 →
       d.target ≠ RenderTarget.screen → d.fbSize = some (640, 480)) ∧
     (∃ t, (CrtFilterRenderer.paint newRendererState 7 3 (640, 480) (800, 600)
          ShaderParams.default true true).2 =
         (if newRendererState.last_size ≠ (640, 480) then
           GlEvent.alloc (640, 480) :: t else t) ∧
       ∀ e ∈ t, e.isAlloc = false)) :=
  ⟨by decide, Or.inr ⟨rfl, rfl⟩,
   paint_reallocates_before_draws newRendererState 7 3 (640, 480) (800, 600)
     ShaderParams.default true true (by decide) (Or.inr ⟨rfl, rfl⟩)⟩

/-! ### Claim C8: pixelate-only render path -/

/-- C8: when only pixelation is requested (run_pixelate true, run_lottes
false), the draws issued by paint are exactly the offscreen pixelate
pass into framebuffer 4 followed by the aspect-correct passthrough
composite of that pass's texture to the screen; no bloom, scanline or
final-composite draw is issued. -/
theorem paint_pixelate_only_draws (s : RendererState) (rv ev : Nat)
    (res out : Nat × Nat) (p : ShaderParams)
    (hres : res ≠ (0, 0)) (hinv : s.sizeInv) :
    (CrtFilterRenderer.paint s rv ev res out p true false).2.filter GlEvent.isDraw =
      [mkDraw (RenderTarget.offscreen 4) PassProgram.pixelate TexRef.video none res (some res),
       mkDraw RenderTarget.screen PassProgram.passthrough (TexRef.pass 4) none out none] := by
  rw [paint_events_eq s rv ev res out p true false,
    paint_state_eq s rv ev res out p true false hres hinv]
  by_cases hne : s.last_size ≠ res <;>
    by_cases h0 : ev ≠ 0 <;>
    simp [hne, h0, paintPixelateEvents, paintMainEvents, paintRestoreEvents,
      List.filter_append]

/-- C8 witness: the pixelate-only draw list at 640x480 on the fresh
renderer. -/
theorem paint_pixelate_only_draws_witness :
    (640, 480) ≠ ((0, 0) : Nat × Nat) ∧ newRendererState.sizeInv ∧
    (CrtFilterRenderer.paint newRendererState 7 3 (640, 480) (800, 600)
        ShaderParams.default true false).2.filter GlEvent.isDraw =
      [mkDraw (RenderTarget.offscreen 4) PassProgram.pixelate TexRef.video none
        (640, 480) (some (640, 480)),
       mkDraw RenderTarget.screen PassProgram.passthrough (TexRef.pass 4) none
        (800, 600) none] :=
  ⟨by decide, Or.inr ⟨rfl, rfl⟩,
   paint_pixelate_only_draws newRendererState 7 3 (640, 480) (800, 600)
     ShaderParams.default (by decide) (Or.inr ⟨rfl, rfl⟩)⟩

/-! ### Claim C9: vertex-array binding restoration -/

/-- C9 exhibit: paint restores the entry vertex-array binding for every
entry value, including 0 (lines 548-553 branch on the zero case and bind
None, which is binding 0). But draw_passthrough restores the entry
binding only when it is nonzero: on entry binding 0 the call panics at
NonZero::new(0).unwrap() (line 574) before any restore, leaving the
renderer's own vertex array bound - the completion flag is false exactly
on the zero case, contradicting the claim that every entry point
restores every entry binding. -/
theorem vao_restore_paint_ok_drawPassthrough_panics (s : RendererState)
    (rv ev : Nat) (res out : Nat × Nat) (p : ShaderParams) (px lt : Bool) :
    finalVaoBinding (CrtFilterRenderer.paint s rv ev res out p px lt).2 ev = ev ∧
    (CrtFilterRenderer.draw_passthrough rv ev res out).2 = (ev != 0) ∧
    finalVaoBinding (CrtFilterRenderer.draw_passthrough rv ev res out).1 ev =
      (if ev = 0 then rv else ev) := by
  refine ⟨?_, ?_, ?_⟩
  · rw [paint_events_eq s rv ev res out p px lt]
    rw [finalVaoBinding_append, finalVaoBinding_restore]
  · by_cases h0 : ev = 0 <;>
      simp [CrtFilterRenderer.draw_passthrough, h0]
  · by_cases h0 : ev = 0 <;>
      simp [CrtFilterRenderer.draw_passthrough, h0, finalVaoBinding, mkDraw]

/-! ### Claim C5: passthrough path is lossless up to aspect scaling -/

/-- C5: with both toggles off the frame is drawn by the passthrough
path: draw_passthrough issues no offscreen draw - its only draw is the
screen composite with the passthrough program sampling the decoded
frame texture directly - and paint with both toggles false issues no
draw at all; at every on-screen coordinate inside the letterboxed
region the passthrough shader outputs exactly the display-gamma
encoding of the source sample at the aspect-corrected coordinate, and
the aspect correction is an injective affine remap, so the source pixel
data is reproduced up to aspect-correct scaling with no other
processing. -/
theorem passthrough_lossless_up_to_aspect (videoRes outputRes : ℚ × ℚ)
    (tex : ℚ × ℚ → ℚ × ℚ × ℚ) (tc : ℚ × ℚ)
    (hv1 : 0 < videoRes.1) (hv2 : 0 < videoRes.2)
    (ho1 : 0 < outputRes.1) (ho2 : 0 < outputRes.2)
    (hin : ¬ ((centeredTC videoRes outputRes tc).1 < 0 ∨
          (centeredTC videoRes outputRes tc).1 > 1 ∨
          (centeredTC videoRes outputRes tc).2 < 0 ∨
          (centeredTC videoRes outputRes tc).2 > 1)) :
    passthroughShader videoRes outputRes tex tc =
      FragColor.srgb (tex (centeredTC videoRes outputRes tc)) ∧
    Function.Injective (centeredTC videoRes outputRes) ∧
    (∀ rv ev res out,
      (CrtFilterRenderer.draw_passthrough rv ev res out).1.filter GlEvent.isDraw =
        [mkDraw RenderTarget.screen PassProgram.passthrough TexRef.video none out none] ∧
      ∀ e ∈ (CrtFilterRenderer.draw_passthrough rv ev res out).1,
        e.isOffscreenDraw = false) ∧
    (∀ st rv ev res out pr,
      (CrtFilterRenderer.paint st rv ev res out pr false false).2.filter
        GlEvent.isDraw = []) := by
  have hva : 0 < videoRes.1 / videoRes.2 := div_pos hv1 hv2
  have hoa : 0 < outputRes.1 / outputRes.2 := div_pos ho1 ho2
  have hsc : 0 < (aspectScale videoRes outputRes).1 ∧
      0 < (aspectScale videoRes outputRes).2 := by
    simp only [aspectScale]
    split_ifs with hc
    · exact ⟨one_pos, div_pos hoa hva⟩
    · exact ⟨div_pos hva hoa, one_pos⟩
  refine ⟨?_, ?_, ?_, ?_⟩
  · show (if (centeredTC videoRes outputRes tc).1 < 0 ∨
        (centeredTC videoRes outputRes tc).1 > 1 ∨
        (centeredTC videoRes outputRes tc).2 < 0 ∨
        (centeredTC videoRes outputRes tc).2 > 1 then FragColor.black
      else FragColor.srgb (tex (centeredTC videoRes outputRes tc))) =
      FragColor.srgb (tex (centeredTC videoRes outputRes tc))
    rw [if_neg hin]
  · intro a b hab
    have h1 := congrArg Prod.fst hab
    have h2 := congrArg Prod.snd hab
    simp only [centeredTC] at h1 h2
    have e1 : a.1 = b.1 := by
      have h1' : (a.1 - 1/2) / (aspectScale videoRes outputRes).1 =
          (b.1 - 1/2) / (aspectScale videoRes outputRes).1 := by linarith
      have h1'' := congrArg (fun x => x * (aspectScale videoRes outputRes).1) h1'
      simp only at h1''
      rw [div_mul_cancel₀ _ (ne_of_gt hsc.1),
        div_mul_cancel₀ _ (ne_of_gt hsc.1)] at h1''
      linarith
    have e2 : a.2 = b.2 := by
      have h2' : (a.2 - 1/2) / (aspectScale videoRes outputRes).2 =
          (b.2 - 1/2) / (aspectScale videoRes outputRes).2 := by linarith
      have h2'' := congrArg (fun x => x * (aspectScale videoRes outputRes).2) h2'
      simp only at h2''
      rw [div_mul_cancel₀ _ (ne_of_gt hsc.2),
        div_mul_cancel₀ _ (ne_of_gt hsc.2)] at h2''
      linarith
    exact Prod.ext e1 e2
  · intro rv ev res out
    constructor
    · by_cases h0 : ev = 0 <;>
        simp [CrtFilterRenderer.draw_passthrough, h0]
    · intro e he
      by_cases h0 : ev = 0
      · simp [CrtFilterRenderer.draw_passthrough, h0] at he
        rcases he with h | h <;> rw [h] <;> rfl
      · simp [CrtFilterRenderer.draw_passthrough, h0] at he
        rcases he with h | h | h <;> rw [h] <;> rfl
  · intro st rv ev res out pr
    rw [paint_events_eq st rv ev res out pr false false]
    by_cases hne : st.last_size ≠ res <;> by_cases h0 : ev ≠ 0 <;>
      simp [hne, h0, paintPixelateEvents, paintMainEvents, paintRestoreEvents]

/-- C5 witness: a 4:3 source on a 4:3 output at the center coordinate. -/
theorem passthrough_lossless_up_to_aspect_witness :
    (0 : ℚ) < (((4 : ℚ), (3 : ℚ)) : ℚ × ℚ).1 ∧
    (0 : ℚ) < (((4 : ℚ), (3 : ℚ)) : ℚ × ℚ).2 ∧
    (¬ ((centeredTC (4, 3) (4, 3) (1/2, 1/2)).1 < 0 ∨
        (centeredTC (4, 3) (4, 3) (1/2, 1/2)).1 > 1 ∨
        (centeredTC (4, 3) (4, 3) (1/2, 1/2)).2 < 0 ∨
        (centeredTC (4, 3) (4, 3) (1/2, 1/2)).2 > 1)) ∧
    (passthroughShader (4, 3) (4, 3) (fun _ => (1, 0, 0)) (1/2, 1/2) =
      FragColor.srgb ((fun _ : ℚ × ℚ => ((1 : ℚ), (0 : ℚ), (0 : ℚ)))
        (centeredTC (4, 3) (4, 3) (1/2, 1/2))) ∧
    Function.Injective (centeredTC (4, 3) (4, 3)) ∧
    (∀ rv ev res out,
      (CrtFilterRenderer.draw_passthrough rv ev res out).1.filter GlEvent.isDraw =
        [mkDraw RenderTarget.screen PassProgram.passthrough TexRef.video none out none] ∧
      ∀ e ∈ (CrtFilterRenderer.draw_passthrough rv ev res out).1,
        e.isOffscreenDraw = false) ∧
    (∀ st rv ev res out pr,
      (CrtFilterRenderer.paint st rv ev res out pr false false).2.filter
        GlEvent.isDraw = [])) :=
  ⟨by norm_num, by norm_num, by norm_num [centeredTC, aspectScale],
   passthrough_lossless_up_to_aspect (4, 3) (4, 3) (fun _ => (1, 0, 0)) (1/2, 1/2)
     (by norm_num) (by norm_num) (by norm_num) (by norm_num)
     (by norm_num [centeredTC, aspectScale])⟩

/-- C3 witness: flag set at iteration 2, three source packets all on the
video stream, a packet available at every decoder poll. -/
theorem stop_signal_halts_both_loops_witness :
    (readerRun 2 0 [(0, 5), (0, 6), (0, 7)]
      (min 2 ([((0 : Nat), (5 : Nat)), (0, 6), (0, 7)] : List (Nat × Nat)).length
        + 1 + 0)).stopped = true ∧
    (decoderRun 2 (fun i => some i) (2 + 1 + 0)).stopped = true ∧
    (∀ j ∈ (readerRun 2 0 [(0, 5), (0, 6), (0, 7)] 5).sent, j < 2) ∧
    (∀ j ∈ (decoderRun 2 (fun i => some i) 5).processed, j < 2) :=
  stop_signal_halts_both_loops 2 0 [(0, 5), (0, 6), (0, 7)] (fun i => some i) 5 0
